import Mathlib

/-!
Shallow embedding of the ILX526A serial frame-acquisition protocol
(`usb_read.py`) and of the port-management communicator
(`spectrointerface/comm/USBCommunicator.py`).

The serial byte stream is modelled as a finite `List Nat` of byte values.
The pyserial primitives used by the script are:
  * `ser.readline()` — blocks until a newline byte (10) arrives and returns
    the line including the newline; if the stream ends first the call never
    completes (modelled as `none`);
  * `ser.read(n)` — blocks until exactly `n` bytes arrive; if the stream
    ends first the call never completes (modelled as `none`).
-/

namespace ILX526A

/-- `ser.readline()`: split the stream at the first newline byte (10),
returning the line (newline included) and the remaining stream; `none` when
the stream holds no newline (the blocking call never returns). -/
def readLine : List Nat → Option (List Nat × List Nat)
  | [] => none
  | b :: rest =>
    if b = 10 then some ([10], rest)
    else
      match readLine rest with
      | some (line, rem) => some (b :: line, rem)
      | none => none

/-- `ser.read(n)`: exactly `n` bytes, or `none` when the stream ends first. -/
def readN (n : Nat) (s : List Nat) : Option (List Nat × List Nat) :=
  if n ≤ s.length then some (s.take n, s.drop n) else none

/-- The start-of-transmission marker `SOT` of `usb_read.py`: a 36-character
UUID string followed by a newline. -/
def SOT : List Nat :=
  "7eae261d-dde2-4eed-a293-a7cd17e4379a\n".toList.map Char.toNat

/-- The pixel count hard-coded in `usb_read.py` (`ser.read(2*3100)`). -/
def pixel_count : Nat := 3100

/-- One pass of the `while start != SOT` loop, with fuel.  Each iteration
reads one line (at least one byte), so `s.length` units of fuel always
suffice on a finite stream; `synchronize` instantiates the fuel that way. -/
def syncFuel (marker : List Nat) : Nat → List Nat → Option (List Nat)
  | 0, _ => none
  | fuel + 1, s =>
    match readLine s with
    | none => none
    | some (line, rest) =>
      if line = marker then some rest
      else syncFuel marker fuel rest

/-- The synchronization loop of `usb_read.py`:
`start = ser.readline(); while start != SOT: start = ser.readline()`.
Returns the stream remaining after the first line equal to `marker`,
or `none` when the marker never appears before the stream ends. -/
def synchronize (marker : List Nat) (s : List Nat) : Option (List Nat) :=
  syncFuel marker s.length s

/-- The raw bytes read for one frame: the sample payload and the 4 timing
bytes (`response` and `delay` in `usb_read.py`). -/
structure RawFrame where
  payload : List Nat
  timing : List Nat
deriving DecidableEq

/-- A decoded frame: unsigned 16-bit samples and one unsigned 32-bit
timing value. -/
structure Frame where
  samples : List Nat
  timing : Nat
deriving DecidableEq

/-- The frame-read sequence of `usb_read.py`:
`response = ser.read(2*3100); discard = ser.read(1); delay = ser.read(4);
discard = ser.read(1)`, with the pixel count generalized to `pc`.  The two
discarded bytes are read but never inspected. -/
def read_frame_bytes (pc : Nat) (s : List Nat) : Option (RawFrame × List Nat) :=
  match readN (2 * pc) s with
  | none => none
  | some (response, s1) =>
    match readN 1 s1 with
    | none => none
    | some (_, s2) =>
      match readN 4 s2 with
      | none => none
      | some (delay, s3) =>
        match readN 1 s3 with
        | none => none
        | some (_, s4) => some (⟨response, delay⟩, s4)

/-- Little-endian pairing of `np.frombuffer(response, np.uint16)` on the
x86 host: consecutive byte pairs `lo, hi` become `lo + 256 * hi`. -/
def decodeU16 : List Nat → List Nat
  | lo :: hi :: rest => (lo + 256 * hi) :: decodeU16 rest
  | _ => []

/-- Little-endian `np.frombuffer(delay, np.uint32)` for a 4-byte buffer. -/
def decodeU32 : List Nat → Nat
  | [a, b, c, d] => a + 256 * (b + 256 * (c + 256 * d))
  | _ => 0

/-- `np.frombuffer` on the payload and the delay bytes.  `np.frombuffer`
raises when the buffer size is not a multiple of the item size, hence the
guard; the reader always supplies correctly sized buffers. -/
def decode (r : RawFrame) : Option Frame :=
  if r.payload.length % 2 = 0 ∧ r.timing.length = 4 then
    some { samples := decodeU16 r.payload, timing := decodeU32 r.timing }
  else none

/-- One iteration of the `while True` acquisition loop: synchronize on the
marker, read the frame bytes, decode.  `none` when any underlying read
fails, in which case the script terminates with the propagated error. -/
def acquireOne (marker : List Nat) (pc : Nat) (s : List Nat) :
    Option (Frame × List Nat) :=
  match synchronize marker s with
  | none => none
  | some s1 =>
    match read_frame_bytes pc s1 with
    | none => none
    | some (raw, s2) =>
      match decode raw with
      | none => none
      | some f => some (f, s2)

/-- The `while True` loop with fuel: emit frames until a cycle fails.  Each
successful cycle consumes at least one byte, so `s.length` units of fuel
always suffice; `acquireAll` instantiates the fuel that way. -/
def acqFuel (marker : List Nat) (pc : Nat) : Nat → List Nat → List Frame
  | 0, _ => []
  | fuel + 1, s =>
    match acquireOne marker pc s with
    | none => []
    | some (f, rest) => f :: acqFuel marker pc fuel rest

/-- All frames emitted by the `while True` loop of `usb_read.py` on a
finite stream, in emission order. -/
def acquireAll (marker : List Nat) (pc : Nat) (s : List Nat) : List Frame :=
  acqFuel marker pc s.length s


/-- A complete line as produced by `ser.readline()`: some body free of
newline bytes, terminated by the newline byte. -/
def isLine (l : List Nat) : Prop :=
  ∃ body, l = body ++ [10] ∧ 10 ∉ body

/-- A stream consisting entirely of complete lines, none of which equals
the marker: the noise discarded by the synchronization loop. -/
inductive NoiseLines (marker : List Nat) : List Nat → Prop
  | nil : NoiseLines marker []
  | cons (line rest : List Nat) : isLine line → line ≠ marker →
      NoiseLines marker rest → NoiseLines marker (line ++ rest)


/-!
Model of `USBCommunicator.openPort` / `USBCommunicator.closePort` from
`spectrointerface/comm/USBCommunicator.py`.  A serial port carries the
bytes the OS has already buffered for it; `serial.Serial(port)` either
yields a port or raises, `flushInput()` discards the buffered bytes (and
may itself raise), `close()` may raise.  Python exception control flow is
made explicit: each operation returns the communicator state left behind
together with a flag recording whether a `RuntimeError` was raised. -/

/-- A serial port handle, carrying the input bytes the OS has buffered. -/
structure SerialPort where
  inputBuffer : List Nat
deriving DecidableEq

/-- `ser.flushInput()`: discard the buffered input bytes. -/
def flushInput (p : SerialPort) : SerialPort := { p with inputBuffer := [] }

/-- The communicator state: the `ser` attribute (absent before any
successful `serial.Serial` call) and the `isPortOpen` flag. -/
structure USBCommunicator where
  ser : Option SerialPort
  isPortOpen : Bool
deriving DecidableEq

/-- `USBCommunicator.openPort`: `self.ser = serial.Serial(port)`, then
`self.ser.flushInput()`, then `self.isPortOpen = True`; any exception is
caught, `self.isPortOpen = False` is set, and a `RuntimeError` is raised.
`serialResult` is the outcome of `serial.Serial(port)` (`none` = raised);
`flushOk` records whether `flushInput` succeeds.  Returns the final state
and whether the call raised. -/
def openPort (serialResult : Option SerialPort) (flushOk : Bool)
    (st : USBCommunicator) : USBCommunicator × Bool :=
  match serialResult with
  | none => ({ st with isPortOpen := false }, true)
  | some p =>
    if flushOk then
      ({ ser := some (flushInput p), isPortOpen := true }, false)
    else
      ({ st with ser := some p, isPortOpen := false }, true)

/-- `USBCommunicator.closePort`: `self.ser.close()` then
`self.isPortOpen = False`; if `close` raises, the handler re-raises a
`RuntimeError` without touching `isPortOpen`.  `closeOk` records whether
the underlying close succeeds. -/
def closePort (closeOk : Bool) (st : USBCommunicator) :
    USBCommunicator × Bool :=
  if closeOk then ({ st with isPortOpen := false }, false)
  else (st, true)

/-- The example stream of §8 of the spec, with `pixel_count = 4`: noise
bytes forming one non-marker line, the marker, payload `08 00 10 00 18 00
20 00`, a delimiter byte, timing `01 00 00 00`, a delimiter byte. -/
def c3Stream : List Nat :=
  [120, 121, 10] ++ SOT ++
    ([8, 0, 16, 0, 24, 0, 32, 0] ++ [255] ++ [1, 0, 0, 0] ++ [255])

/-- Bytes of one valid frame (`pixel_count = 4`) with samples
`[1, 2, 3, 4]` and timing 2, marker included. -/
def secondFrameStream : List Nat :=
  SOT ++ ([1, 0, 2, 0, 3, 0, 4, 0] ++ [255] ++ [2, 0, 0, 0] ++ [255])

/-- Two valid back-to-back frames: the second marker immediately follows
the first frame's trailing delimiter byte. -/
def twoFrameStream : List Nat :=
  SOT ++ ([8, 0, 16, 0, 24, 0, 32, 0] ++ [255] ++ [1, 0, 0, 0] ++ [255]) ++
    secondFrameStream

theorem readLine_spec {s line rest : List Nat}
    (h : readLine s = some (line, rest)) :
    line ≠ [] ∧ s = line ++ rest := by
  induction s generalizing line rest with
  | nil => simp [readLine] at h
  | cons b tl ih =>
    by_cases hb : b = 10
    · simp [readLine, hb] at h
      obtain ⟨h1, h2⟩ := h
      subst h1; subst h2; subst hb
      exact ⟨by simp, rfl⟩
    · rw [readLine, if_neg hb] at h
      cases hr : readLine tl with
      | none => rw [hr] at h; exact absurd h (by simp)
      | some p =>
        obtain ⟨l0, r0⟩ := p
        rw [hr] at h
        simp at h
        obtain ⟨h1, h2⟩ := h
        obtain ⟨_, hs⟩ := ih hr
        subst h1; subst h2
        exact ⟨by simp, by simp [← hs]⟩

theorem readLine_length_lt {s line rest : List Nat}
    (h : readLine s = some (line, rest)) : rest.length < s.length := by
  obtain ⟨hne, hs⟩ := readLine_spec h
  subst hs
  have : 0 < line.length := List.length_pos.mpr hne
  simp [List.length_append]
  omega

theorem syncFuel_fuel_irrel (marker : List Nat) :
    ∀ (f1 f2 : Nat) (s : List Nat), s.length ≤ f1 → s.length ≤ f2 →
      syncFuel marker f1 s = syncFuel marker f2 s := by
  intro f1
  induction f1 with
  | zero =>
    intro f2 s h1 _
    have hs : s = [] := List.length_eq_zero.mp (Nat.le_zero.mp h1)
    subst hs
    cases f2 with
    | zero => rfl
    | succ k => simp [syncFuel, readLine]
  | succ n ih =>
    intro f2 s h1 h2
    cases f2 with
    | zero =>
      have hs : s = [] := List.length_eq_zero.mp (Nat.le_zero.mp h2)
      subst hs
      simp [syncFuel, readLine]
    | succ k =>
      rw [syncFuel, syncFuel]
      cases hr : readLine s with
      | none => rfl
      | some p =>
        obtain ⟨line, rest⟩ := p
        by_cases hl : line = marker
        · simp [hl]
        · simp only [hl, if_false]
          have hlt := readLine_length_lt hr
          exact ih k rest (by omega) (by omega)

/-- Defining equation of the synchronization loop: read one line; an exact
match returns, anything else is discarded and scanning continues. -/
theorem synchronize_step {marker s line rest : List Nat}
    (h : readLine s = some (line, rest)) :
    synchronize marker s =
      if line = marker then some rest else synchronize marker rest := by
  obtain ⟨hne, hs⟩ := readLine_spec h
  have hlt := readLine_length_lt h
  unfold synchronize
  cases hn : s.length with
  | zero =>
    exfalso
    have : s = [] := List.length_eq_zero.mp hn
    subst this
    simp [readLine] at h
  | succ n =>
    rw [syncFuel, h]
    by_cases hl : line = marker
    · simp [hl]
    · simp only [hl, if_false]
      exact syncFuel_fuel_irrel marker n rest.length rest (by omega) le_rfl

theorem synchronize_none {marker s : List Nat}
    (h : readLine s = none) : synchronize marker s = none := by
  unfold synchronize
  cases hn : s.length with
  | zero => rfl
  | succ n => rw [syncFuel, h]

theorem synchronize_length_lt {marker s r : List Nat}
    (h : synchronize marker s = some r) : r.length < s.length := by
  unfold synchronize at h
  generalize hf : s.length = f at h
  have hle : s.length ≤ f := hf.le
  clear hf
  induction f generalizing s with
  | zero => simp [syncFuel] at h
  | succ n ih =>
    rw [syncFuel] at h
    cases hr : readLine s with
    | none => rw [hr] at h; exact absurd h (by simp)
    | some p =>
      obtain ⟨line, rest⟩ := p
      rw [hr] at h
      have hlt := readLine_length_lt hr
      by_cases hl : line = marker
      · subst hl
        simp at h
        subst h
        omega
      · simp [hl] at h
        have := ih h (by omega)
        omega

theorem readN_spec {n : Nat} {s bytes rest : List Nat}
    (h : readN n s = some (bytes, rest)) :
    bytes.length = n ∧ s = bytes ++ rest := by
  unfold readN at h
  by_cases hn : n ≤ s.length
  · rw [if_pos hn] at h
    simp at h
    obtain ⟨h1, h2⟩ := h
    subst h1; subst h2
    exact ⟨List.length_take_of_le hn, (List.take_append_drop n s).symm⟩
  · rw [if_neg hn] at h
    exact absurd h (by simp)

theorem read_frame_bytes_spec {pc : Nat} {s s' : List Nat} {raw : RawFrame}
    (h : read_frame_bytes pc s = some (raw, s')) :
    raw.payload.length = 2 * pc ∧ raw.timing.length = 4 ∧
      ∃ d1 d2 : Nat, s = raw.payload ++ d1 :: (raw.timing ++ d2 :: s') := by
  unfold read_frame_bytes at h
  cases h1 : readN (2 * pc) s with
  | none => rw [h1] at h; exact absurd h (by simp)
  | some p1 =>
    obtain ⟨response, s1⟩ := p1
    rw [h1] at h
    dsimp only at h
    cases h2 : readN 1 s1 with
    | none => simp [h2] at h
    | some p2 =>
      obtain ⟨dl1, s2⟩ := p2
      rw [h2] at h
      dsimp only at h
      cases h3 : readN 4 s2 with
      | none => simp [h3] at h
      | some p3 =>
        obtain ⟨delay, s3⟩ := p3
        rw [h3] at h
        dsimp only at h
        cases h4 : readN 1 s3 with
        | none => simp [h4] at h
        | some p4 =>
          obtain ⟨dl2, s4⟩ := p4
          rw [h4] at h
          simp at h
          obtain ⟨hraw, hs⟩ := h
          subst hraw; subst hs
          obtain ⟨hl1, he1⟩ := readN_spec h1
          obtain ⟨hl2, he2⟩ := readN_spec h2
          obtain ⟨hl3, he3⟩ := readN_spec h3
          obtain ⟨hl4, he4⟩ := readN_spec h4
          obtain ⟨b1, hb1⟩ := List.length_eq_one.mp hl2
          obtain ⟨b2, hb2⟩ := List.length_eq_one.mp hl4
          subst hb1; subst hb2
          refine ⟨hl1, hl3, b1, b2, ?_⟩
          subst he1; subst he2; subst he3; subst he4
          simp

theorem read_frame_bytes_length_le {pc : Nat} {s s' : List Nat}
    {raw : RawFrame} (h : read_frame_bytes pc s = some (raw, s')) :
    s'.length ≤ s.length := by
  obtain ⟨_, _, d1, d2, hs⟩ := read_frame_bytes_spec h
  subst hs
  simp [List.length_append]
  omega

theorem acquireOne_spec {marker : List Nat} {pc : Nat} {s rest : List Nat}
    {f : Frame} (h : acquireOne marker pc s = some (f, rest)) :
    ∃ s1 raw, synchronize marker s = some s1 ∧
      read_frame_bytes pc s1 = some (raw, rest) ∧ decode raw = some f := by
  unfold acquireOne at h
  cases h1 : synchronize marker s with
  | none => rw [h1] at h; exact absurd h (by simp)
  | some s1 =>
    rw [h1] at h
    dsimp only at h
    cases h2 : read_frame_bytes pc s1 with
    | none => simp [h2] at h
    | some p =>
      obtain ⟨raw, s2⟩ := p
      rw [h2] at h
      dsimp only at h
      cases h3 : decode raw with
      | none => simp [h3] at h
      | some f0 =>
        rw [h3] at h
        simp at h
        obtain ⟨hf, hs⟩ := h
        subst hf; subst hs
        exact ⟨s1, raw, rfl, h2, h3⟩

theorem acquireOne_length_lt {marker : List Nat} {pc : Nat}
    {s rest : List Nat} {f : Frame}
    (h : acquireOne marker pc s = some (f, rest)) : rest.length < s.length := by
  obtain ⟨s1, raw, h1, h2, _⟩ := acquireOne_spec h
  have := synchronize_length_lt h1
  have := read_frame_bytes_length_le h2
  omega

theorem acquireOne_nil (marker : List Nat) (pc : Nat) :
    acquireOne marker pc [] = none := by
  unfold acquireOne
  rw [synchronize_none (by rfl)]

theorem acqFuel_nil (marker : List Nat) (pc : Nat) (fuel : Nat) :
    acqFuel marker pc fuel [] = [] := by
  cases fuel with
  | zero => rfl
  | succ k =>
    rw [acqFuel, acquireOne_nil]

theorem acqFuel_fuel_irrel (marker : List Nat) (pc : Nat) :
    ∀ (f1 f2 : Nat) (s : List Nat), s.length ≤ f1 → s.length ≤ f2 →
      acqFuel marker pc f1 s = acqFuel marker pc f2 s := by
  intro f1
  induction f1 with
  | zero =>
    intro f2 s h1 _
    have hs : s = [] := List.length_eq_zero.mp (Nat.le_zero.mp h1)
    subst hs
    rw [acqFuel_nil, acqFuel_nil]
  | succ n ih =>
    intro f2 s h1 h2
    cases f2 with
    | zero =>
      have hs : s = [] := List.length_eq_zero.mp (Nat.le_zero.mp h2)
      subst hs
      rw [acqFuel_nil, acqFuel_nil]
    | succ k =>
      rw [acqFuel, acqFuel]
      cases ha : acquireOne marker pc s with
      | none => rfl
      | some p =>
        obtain ⟨f, rest⟩ := p
        have hlt := acquireOne_length_lt ha
        dsimp only
        rw [ih k rest (by omega) (by omega)]

/-- Defining equation of the acquisition loop, successful-cycle case: emit
the frame and go back to synchronizing on the remaining stream. -/
theorem acquireAll_step {marker : List Nat} {pc : Nat} {s rest : List Nat}
    {f : Frame} (h : acquireOne marker pc s = some (f, rest)) :
    acquireAll marker pc s = f :: acquireAll marker pc rest := by
  have hlt := acquireOne_length_lt h
  unfold acquireAll
  cases hn : s.length with
  | zero =>
    exfalso
    omega
  | succ n =>
    rw [acqFuel, h]
    simp only
    rw [acqFuel_fuel_irrel marker pc n rest.length rest (by omega) le_rfl]

/-- Defining equation of the acquisition loop, failing-cycle case: no frame
is emitted and the loop terminates. -/
theorem acquireAll_none {marker : List Nat} {pc : Nat} {s : List Nat}
    (h : acquireOne marker pc s = none) : acquireAll marker pc s = [] := by
  unfold acquireAll
  cases hn : s.length with
  | zero => rfl
  | succ n => rw [acqFuel, h]

theorem readLine_body (s : List Nat) :
    ∀ body : List Nat, 10 ∉ body →
      readLine (body ++ 10 :: s) = some (body ++ [10], s) := by
  intro body
  induction body with
  | nil => intro _; simp [readLine]
  | cons b tl ih =>
    intro hmem
    have hb : b ≠ 10 := by
      intro hb
      exact hmem (by simp [hb])
    have htl : 10 ∉ tl := fun h => hmem (by simp [h])
    simp only [List.cons_append]
    rw [readLine, if_neg hb, ih htl]

theorem readLine_of_isLine {line : List Nat} (h : isLine line)
    (s : List Nat) : readLine (line ++ s) = some (line, s) := by
  obtain ⟨body, hl, hmem⟩ := h
  subst hl
  rw [List.append_assoc, List.singleton_append]
  exact readLine_body s body hmem

/-- Synchronization consumes exactly the noise lines and the first marker
line, leaving the rest of the stream untouched. -/
theorem synchronize_skip {marker pre : List Nat}
    (hpre : NoiseLines marker pre) (hm : isLine marker) (rest : List Nat) :
    synchronize marker (pre ++ (marker ++ rest)) = some rest := by
  induction hpre with
  | nil =>
    rw [List.nil_append, synchronize_step (readLine_of_isLine hm rest),
      if_pos rfl]
  | cons line r hline hne hr ih =>
    rw [List.append_assoc,
      synchronize_step (readLine_of_isLine hline (r ++ (marker ++ rest))),
      if_neg hne]
    exact ih

/-- A stream made only of non-marker lines never synchronizes (the loop
keeps scanning until the underlying read fails). -/
theorem synchronize_noise_none {marker s : List Nat}
    (h : NoiseLines marker s) : synchronize marker s = none := by
  induction h with
  | nil => rfl
  | cons line r hline hne hr ih =>
    rw [synchronize_step (readLine_of_isLine hline r), if_neg hne]
    exact ih

theorem decodeU16_length : ∀ l : List Nat, (decodeU16 l).length = l.length / 2
  | [] => by simp [decodeU16]
  | [x] => by simp [decodeU16]
  | lo :: hi :: rest => by
    have ih := decodeU16_length rest
    simp only [decodeU16, List.length_cons, ih]
    omega

theorem decodeU32_lt (l : List Nat) (hlen : l.length = 4)
    (hb : ∀ b ∈ l, b < 256) : decodeU32 l < 2 ^ 32 := by
  rcases l with _ | ⟨a, _ | ⟨b, _ | ⟨c, _ | ⟨d, _ | ⟨e, tl⟩⟩⟩⟩⟩ <;>
    simp only [List.length_cons, List.length_nil] at hlen
  · omega
  · omega
  · omega
  · omega
  · have ha := hb a (by simp)
    have hbb := hb b (by simp)
    have hc := hb c (by simp)
    have hd := hb d (by simp)
    simp only [decodeU32]
    omega
  · omega

/-- C1: for every line returned during synchronization, the loop
transitions to reading a frame (returning the remaining stream) if and
only if the line is byte-for-byte equal to the 37-byte marker constant;
any differing line is discarded and scanning continues with the next
line. -/
theorem sync_marker_exact (s line rest : List Nat)
    (h : readLine s = some (line, rest)) :
    SOT.length = 37 ∧
      (synchronize SOT s =
        if line = SOT then some rest else synchronize SOT rest) ∧
      (synchronize SOT s = some rest ↔ line = SOT) := by
  have hstep : synchronize SOT s =
      if line = SOT then some rest else synchronize SOT rest :=
    synchronize_step h
  refine ⟨by decide, hstep, ?_, ?_⟩
  · intro hsync
    by_contra hne
    rw [hstep, if_neg hne] at hsync
    exact absurd (synchronize_length_lt hsync) (lt_irrefl _)
  · intro hl
    rw [hstep, if_pos hl]

theorem sync_marker_exact_witness :
    SOT.length = 37 ∧
      (synchronize SOT SOT =
        if SOT = SOT then some [] else synchronize SOT []) ∧
      (synchronize SOT SOT = some [] ↔ SOT = SOT) :=
  sync_marker_exact SOT SOT [] (by decide)

/-- C2: every successful frame read consumes, in order, `2 * pc` payload
bytes, one unvalidated delimiter byte, 4 timing bytes, and one more
unvalidated delimiter byte; the payload has length `2 * pc` and the
timing field has length 4. -/
theorem frame_read_sequence (pc : Nat) (s s' : List Nat) (raw : RawFrame)
    (h : read_frame_bytes pc s = some (raw, s')) :
    raw.payload.length = 2 * pc ∧ raw.timing.length = 4 ∧
      ∃ d1 d2 : Nat, s = raw.payload ++ d1 :: (raw.timing ++ d2 :: s') :=
  read_frame_bytes_spec h

theorem frame_read_sequence_witness :
    (⟨[5, 0], [1, 0, 0, 0]⟩ : RawFrame).payload.length = 2 * 1 ∧
      (⟨[5, 0], [1, 0, 0, 0]⟩ : RawFrame).timing.length = 4 ∧
      ∃ d1 d2 : Nat, [5, 0, 255, 1, 0, 0, 0, 254] =
        (⟨[5, 0], [1, 0, 0, 0]⟩ : RawFrame).payload ++
          d1 :: ((⟨[5, 0], [1, 0, 0, 0]⟩ : RawFrame).timing ++ d2 :: []) :=
  frame_read_sequence 1 [5, 0, 255, 1, 0, 0, 0, 254] []
    ⟨[5, 0], [1, 0, 0, 0]⟩ (by decide)

/-- C3: on the stream of noise bytes, the marker, payload
`08 00 10 00 18 00 20 00`, a delimiter, timing `01 00 00 00` and a
delimiter, with `pixel_count = 4`, one acquisition cycle produces exactly
one frame with samples `[8, 16, 24, 32]` and timing 1. -/
theorem example_single_frame :
    acquireOne SOT 4 c3Stream =
      some ({ samples := [8, 16, 24, 32], timing := 1 }, []) ∧
      acquireAll SOT 4 c3Stream =
        [{ samples := [8, 16, 24, 32], timing := 1 }] := by
  decide

/-- C4: for any raw frame whose payload is exactly `2 * pc` bytes and
whose timing field is exactly 4 bytes (of byte values), `decode` never
fails and yields samples of length exactly `pc` and a timing value below
`2 ^ 32`.  `decode` is a plain function, hence pure. -/
theorem decode_totality (raw : RawFrame) (pc : Nat)
    (hp : raw.payload.length = 2 * pc) (ht : raw.timing.length = 4)
    (hb : ∀ b ∈ raw.timing, b < 256) :
    ∃ f : Frame, decode raw = some f ∧ f.samples.length = pc ∧
      f.timing < 2 ^ 32 := by
  refine ⟨{ samples := decodeU16 raw.payload,
            timing := decodeU32 raw.timing }, ?_, ?_, ?_⟩
  · unfold decode
    rw [if_pos ⟨by omega, ht⟩]
  · rw [decodeU16_length, hp]
    omega
  · exact decodeU32_lt raw.timing ht hb

theorem decode_totality_witness :
    ∃ f : Frame, decode ⟨[7, 1], [3, 0, 0, 0]⟩ = some f ∧
      f.samples.length = 1 ∧ f.timing < 2 ^ 32 :=
  decode_totality ⟨[7, 1], [3, 0, 0, 0]⟩ 1 (by decide) (by decide)
    (by decide)

/-- C5: if the frame-byte read fails after synchronization (any underlying
read returning short or timing out), no frame is emitted for that cycle
and the acquisition loop terminates with no retry; no partial frame
reaches the decoder or the consumer. -/
theorem fail_fast_short_read (marker : List Nat) (pc : Nat)
    (s s1 : List Nat) (hsync : synchronize marker s = some s1)
    (hfail : read_frame_bytes pc s1 = none) :
    acquireOne marker pc s = none ∧ acquireAll marker pc s = [] := by
  have h1 : acquireOne marker pc s = none := by
    unfold acquireOne
    rw [hsync]
    dsimp only
    rw [hfail]
  exact ⟨h1, acquireAll_none h1⟩

theorem fail_fast_short_read_witness :
    acquireOne [10] 4 [10] = none ∧ acquireAll [10] 4 [10] = [] :=
  fail_fast_short_read [10] 4 [10] [] (by decide) (by decide)

/-- C6: after every successful frame emission the loop goes back to
synchronizing on the remaining stream before reading any further payload
bytes; in particular, on two valid back-to-back frames (second marker
immediately after the first frame's trailing delimiter) it emits exactly
two frames, in stream order. -/
theorem emit_then_resync (marker : List Nat) (pc : Nat)
    (s rest : List Nat) (f : Frame)
    (h : acquireOne marker pc s = some (f, rest)) :
    acquireAll marker pc s = f :: acquireAll marker pc rest ∧
      acquireAll SOT 4 twoFrameStream =
        [{ samples := [8, 16, 24, 32], timing := 1 },
         { samples := [1, 2, 3, 4], timing := 2 }] :=
  ⟨acquireAll_step h, by decide⟩

theorem emit_then_resync_witness :
    acquireAll SOT 4 twoFrameStream =
      { samples := [8, 16, 24, 32], timing := 1 } ::
        acquireAll SOT 4 secondFrameStream ∧
      acquireAll SOT 4 twoFrameStream =
        [{ samples := [8, 16, 24, 32], timing := 1 },
         { samples := [1, 2, 3, 4], timing := 2 }] :=
  emit_then_resync SOT 4 twoFrameStream secondFrameStream
    { samples := [8, 16, 24, 32], timing := 1 } (by decide)

/-- C7: an emitted frame is built exclusively from that cycle's payload
and timing reads: after the bytes the synchronizer discarded, the stream
splits as payload, one delimiter byte, timing bytes, one delimiter byte,
remainder, and the frame's samples and timing are functions of the
payload and timing bytes alone — discarded sync bytes and delimiter bytes
never contribute. -/
theorem no_cross_frame_leakage (marker : List Nat) (pc : Nat)
    (s rest : List Nat) (f : Frame)
    (h : acquireOne marker pc s = some (f, rest)) :
    ∃ payload d1 tbytes d2,
      synchronize marker s =
        some (payload ++ d1 :: (tbytes ++ d2 :: rest)) ∧
      payload.length = 2 * pc ∧ tbytes.length = 4 ∧
      f.samples = decodeU16 payload ∧ f.timing = decodeU32 tbytes := by
  obtain ⟨s1, raw, h1, h2, h3⟩ := acquireOne_spec h
  obtain ⟨hp, ht, d1, d2, hs⟩ := read_frame_bytes_spec h2
  unfold decode at h3
  rw [if_pos ⟨by omega, ht⟩] at h3
  simp only [Option.some.injEq] at h3
  subst h3
  exact ⟨raw.payload, d1, raw.timing, d2, by rw [h1, hs], hp, ht, rfl, rfl⟩

theorem no_cross_frame_leakage_witness :
    ∃ payload d1 tbytes d2,
      synchronize SOT c3Stream =
        some (payload ++ d1 :: (tbytes ++ d2 :: [])) ∧
      payload.length = 2 * 4 ∧ tbytes.length = 4 ∧
      (⟨[8, 16, 24, 32], 1⟩ : Frame).samples = decodeU16 payload ∧
      (⟨[8, 16, 24, 32], 1⟩ : Frame).timing = decodeU32 tbytes :=
  no_cross_frame_leakage SOT 4 c3Stream [] ⟨[8, 16, 24, 32], 1⟩
    (by decide)

/-- C8: `openPort` either succeeds — the port is open, the already
buffered input was flushed before any read, and `isPortOpen` is `True` —
or raises, in which case `isPortOpen` is `False`; the connection is never
left marked open after a failed open. -/
theorem openPort_success_or_closed (serialResult : Option SerialPort)
    (flushOk : Bool) (st : USBCommunicator) :
    ((openPort serialResult flushOk st).2 = false ∧
      (openPort serialResult flushOk st).1.isPortOpen = true ∧
      (openPort serialResult flushOk st).1.ser = some ⟨[]⟩) ∨
    ((openPort serialResult flushOk st).2 = true ∧
      (openPort serialResult flushOk st).1.isPortOpen = false) := by
  cases serialResult with
  | none => right; simp [openPort]
  | some p =>
    cases flushOk with
    | true => left; simp [openPort, flushInput]
    | false => right; simp [openPort]

theorem openPort_success_or_closed_witness :
    ((openPort (some ⟨[9, 9]⟩) true ⟨none, false⟩).2 = false ∧
      (openPort (some ⟨[9, 9]⟩) true ⟨none, false⟩).1.isPortOpen = true ∧
      (openPort (some ⟨[9, 9]⟩) true ⟨none, false⟩).1.ser = some ⟨[]⟩) ∨
    ((openPort (some ⟨[9, 9]⟩) true ⟨none, false⟩).2 = true ∧
      (openPort (some ⟨[9, 9]⟩) true ⟨none, false⟩).1.isPortOpen = false) :=
  openPort_success_or_closed (some ⟨[9, 9]⟩) true ⟨none, false⟩

/-- C9: synchronization consumes lines without bound: on a stream of
non-marker noise lines followed by the marker, it succeeds after
consuming exactly the bytes up to and including the first marker line;
on a stream of non-marker lines it never succeeds (the finite-stream
rendering of a scan that never returns until the underlying read fails),
and a failed synchronization aborts the whole acquisition cycle. -/
theorem sync_unbounded_consumption (pre rest s : List Nat) (pc : Nat)
    (hpre : NoiseLines SOT pre) (hs : NoiseLines SOT s) :
    synchronize SOT (pre ++ (SOT ++ rest)) = some rest ∧
      synchronize SOT s = none ∧ acquireOne SOT pc s = none := by
  have hm : isLine SOT := ⟨SOT.dropLast, by decide, by decide⟩
  have h2 := synchronize_noise_none hs
  refine ⟨synchronize_skip hpre hm rest, h2, ?_⟩
  unfold acquireOne
  rw [h2]

theorem sync_unbounded_consumption_witness :
    synchronize SOT ([120, 10] ++ (SOT ++ [7])) = some [7] ∧
      synchronize SOT [121, 10] = none ∧
      acquireOne SOT 4 [121, 10] = none :=
  sync_unbounded_consumption [120, 10] [7] [121, 10] 4
    (NoiseLines.cons [120, 10] [] ⟨[120], rfl, by decide⟩ (by decide)
      NoiseLines.nil)
    (NoiseLines.cons [121, 10] [] ⟨[121], rfl, by decide⟩ (by decide)
      NoiseLines.nil)

/-- C10: `closePort` is not atomic on error: when the underlying close
succeeds, `isPortOpen` becomes `False` and nothing is raised; when it
raises, `closePort` raises and `isPortOpen` keeps its previous value, so
a port that failed to close remains marked open. -/
theorem closePort_not_atomic (st : USBCommunicator) :
    closePort true st = ({ st with isPortOpen := false }, false) ∧
      closePort false st = (st, true) ∧
      (closePort false st).1.isPortOpen = st.isPortOpen := by
  refine ⟨?_, ?_, ?_⟩ <;> simp [closePort]

theorem closePort_not_atomic_witness :
    closePort true ⟨some ⟨[]⟩, true⟩ =
      ({ (⟨some ⟨[]⟩, true⟩ : USBCommunicator) with isPortOpen := false },
        false) ∧
      closePort false ⟨some ⟨[]⟩, true⟩ = (⟨some ⟨[]⟩, true⟩, true) ∧
      (closePort false ⟨some ⟨[]⟩, true⟩).1.isPortOpen =
        (⟨some ⟨[]⟩, true⟩ : USBCommunicator).isPortOpen :=
  closePort_not_atomic ⟨some ⟨[]⟩, true⟩

end ILX526A
